import Mathlib

/-!
Shallow embedding of `src/gh_stats/gh_stats.py` (gh-repo-stats): a CLI tool
that resolves a list of GitHub repositories, fetches per-repository stats
through three HTTP endpoints, and renders the result as a console table, a
CSV file or a JSON file.

Network responses are modelled as explicit inputs (JSON objects become
association lists), and each piece of `main` is embedded as a pure function
over those inputs.
-/

/-- The flat record assembled by `get_repo_data` (spec entity RepoStatsRecord).
Python dict keys with spaces (for example "Clones Total") become camelCase
field names; the key order of the Python dict literal is preserved. -/
structure RepoStatsRecord where
  repo : String
  forks : Int
  stars : Int
  watchers : Int
  clonesTotal : Int
  clonesUnique : Int
  viewsTotal : Int
  viewsUnique : Int
  deriving Repr, DecidableEq

/-- Embedding of `get_repo_data` (gh_stats.py lines 12-36): the three JSON
response bodies (repository detail, traffic/views, traffic/clones) are passed
in as association lists from key to integer value. A Python `KeyError` on a
missing key (the fetch aborts) is modelled by `none`; the key lookups mirror
`resp_data["forks_count"]`, `views["count"]`, `clones["count"]`, etc. -/
def get_repo_data (owner repo : String)
    (resp_data views clones : List (String × Int)) : Option RepoStatsRecord := do
  let forks ← resp_data.lookup "forks_count"
  let stars ← resp_data.lookup "stargazers_count"
  let watchers ← resp_data.lookup "watchers_count"
  let clonesTotal ← clones.lookup "count"
  let clonesUnique ← clones.lookup "uniques"
  let viewsTotal ← views.lookup "count"
  let viewsUnique ← views.lookup "uniques"
  pure ⟨owner ++ "/" ++ repo, forks, stars, watchers,
        clonesTotal, clonesUnique, viewsTotal, viewsUnique⟩

/-- C2: whenever the detail endpoint supplies forks_count, stargazers_count
and watchers_count, and the views and clones endpoints each supply count and
uniques, `get_repo_data` returns the merged record with Repo "owner/repo",
the three detail counters, the clone counters and the view counters. -/
theorem get_repo_data_merges (owner repo : String)
    (resp_data views clones : List (String × Int))
    (f s w vc vu cc cu : Int)
    (hf : resp_data.lookup "forks_count" = some f)
    (hs : resp_data.lookup "stargazers_count" = some s)
    (hw : resp_data.lookup "watchers_count" = some w)
    (hvc : views.lookup "count" = some vc)
    (hvu : views.lookup "uniques" = some vu)
    (hcc : clones.lookup "count" = some cc)
    (hcu : clones.lookup "uniques" = some cu) :
    get_repo_data owner repo resp_data views clones =
      some ⟨owner ++ "/" ++ repo, f, s, w, cc, cu, vc, vu⟩ := by
  simp [get_repo_data, hf, hs, hw, hvc, hvu, hcc, hcu]

/-- C2 witness: the concrete example from the spec, owner acme, repo widgets,
detail `{forks_count: 3, stargazers_count: 10, watchers_count: 10}`, views
`{count: 50, uniques: 20}`, clones `{count: 5, uniques: 4}`. -/
theorem get_repo_data_merges_witness :
    get_repo_data "acme" "widgets"
      [("forks_count", 3), ("stargazers_count", 10), ("watchers_count", 10)]
      [("count", 50), ("uniques", 20)]
      [("count", 5), ("uniques", 4)] =
      some ⟨"acme/widgets", 3, 10, 10, 5, 4, 50, 20⟩ :=
  get_repo_data_merges "acme" "widgets" _ _ _ 3 10 10 50 20 5 4
    (by decide) (by decide) (by decide) (by decide) (by decide)
    (by decide) (by decide)

/-- One element of the `Owners` list: a YAML mapping from owner name to the
list of the repository names of that owner, embedded as an insertion-ordered
association list (Python dicts preserve insertion order). The config format
intends single-key mappings, but YAML permits several keys in one entry. -/
abbrev OwnerEntry := List (String × List String)

/-- The resolved RepoSource: the value of `repos_dict["Owners"]`. -/
abbrev RepoSource := List OwnerEntry

/-- The (owner, repo) pairs the loop body consumes from one `Owners` entry
(gh_stats.py lines 81-84): `key = next(iter(repo_owner))` takes the first
key (raising StopIteration, modelled `none`, on an empty mapping), and only
`repo_owner[key]` is iterated. -/
def entryPairs (e : OwnerEntry) : Option (List (String × String)) :=
  match e with
  | [] => none
  | (key, _) :: _ => (e.lookup key).map (fun rs => rs.map (fun r => (key, r)))

/-- The full sequence of (owner, repo) arguments passed to `get_repo_data`
by the fetch loop, in order; `none` when the loop raises. -/
def consumedPairs (src : RepoSource) : Option (List (String × String)) :=
  match src with
  | [] => some []
  | e :: rest => do
      let p ← entryPairs e
      let q ← consumedPairs rest
      pure (p ++ q)

/-- Embedding of `final_data` (gh_stats.py lines 80-84): the list built by appending one
fetched record per consumed (owner, repo) pair, with the network fetch
abstracted as a function from owner and repo to the resulting record. -/
def finalData (fetch : String → String → RepoStatsRecord) (src : RepoSource) :
    Option (List RepoStatsRecord) :=
  (consumedPairs src).map (fun ps => ps.map (fun p => fetch p.1 p.2))

/-- Every (owner, repo) pair a RepoSource contains, over all keys of every
entry, in order of appearance. -/
def allPairs (src : RepoSource) : List (String × String) :=
  src.flatMap (fun e => e.flatMap (fun kv => kv.2.map (fun r => (kv.1, r))))

/-- The total number of (owner, repo) pairs a RepoSource contains. -/
def numPairs (src : RepoSource) : Nat :=
  (src.map (fun e => (e.map (fun kv => kv.2.length)).sum)).sum

theorem entryPairs_single (key : String) (rs : List String) :
    entryPairs [(key, rs)] = some (rs.map (fun r => (key, r))) := by
  simp [entryPairs, List.lookup]

/-- C3: for a RepoSource in the documented shape (each `Owners` entry is a
single-key mapping), the loop consumes exactly the N pairs of the source in
their order of appearance, the fetcher is applied once per pair, and the
resulting record list is in the same order. -/
theorem fetch_loop_order (fetch : String → String → RepoStatsRecord)
    (src : RepoSource) (hone : ∀ e ∈ src, ∃ key rs, e = [(key, rs)]) :
    consumedPairs src = some (allPairs src) ∧
    (allPairs src).length = numPairs src ∧
    finalData fetch src = some ((allPairs src).map (fun p => fetch p.1 p.2)) := by
  have hmain : consumedPairs src = some (allPairs src) := by
    induction src with
    | nil => simp [consumedPairs, allPairs]
    | cons e rest ih =>
        obtain ⟨key, rs, rfl⟩ := hone e (List.mem_cons_self e rest)
        have hrest := ih (fun x hx => hone x (List.mem_cons_of_mem _ hx))
        simp [consumedPairs, entryPairs_single, hrest, allPairs]
  refine ⟨hmain, ?_, ?_⟩
  · clear hmain
    induction src with
    | nil => simp [allPairs, numPairs]
    | cons e rest ih =>
        have hrest := ih (fun x hx => hone x (List.mem_cons_of_mem _ hx))
        simp [allPairs, numPairs, Function.comp_def] at hrest ⊢
  · simp [finalData, hmain]


/-- C3 witness: the single-entry source `{Owners: [{acme: [widgets, gadgets]}]}`
consumes exactly the two pairs, in order. -/
theorem fetch_loop_order_witness :
    consumedPairs [[("acme", ["widgets", "gadgets"])]] =
      some [("acme", "widgets"), ("acme", "gadgets")] := by
  have h := (fetch_loop_order (fun o r => ⟨o ++ "/" ++ r, 0, 0, 0, 0, 0, 0, 0⟩)
      [[("acme", ["widgets", "gadgets"])]]
      (by intro e he; simp at he; exact ⟨"acme", ["widgets", "gadgets"], he⟩)).1
  rw [h]; decide

theorem consumedPairs_cons (e : OwnerEntry) (rest : RepoSource) :
    consumedPairs (e :: rest) =
      (entryPairs e).bind (fun p => (consumedPairs rest).map (fun q => p ++ q)) := by
  cases he : entryPairs e <;> cases hr : consumedPairs rest <;>
    simp [consumedPairs, he, hr]

/-- C10: wherever an `Owners` entry with first key k1 (repos rs1) and any
further keys (tail) sits inside the source, the loop consumes only the pairs
(k1, r) for r in rs1 from that entry; everything under the further keys is
skipped, and no error is raised for them. -/
theorem first_key_only (src1 : RepoSource) (k1 : String) (rs1 : List String)
    (tail : OwnerEntry) (src2 : RepoSource) :
    consumedPairs (src1 ++ ((k1, rs1) :: tail) :: src2) =
      (consumedPairs src1).bind (fun p =>
        (consumedPairs src2).map (fun q =>
          p ++ rs1.map (fun r => (k1, r)) ++ q)) := by
  induction src1 with
  | nil =>
      cases hr : consumedPairs src2 <;>
        simp [consumedPairs, entryPairs, List.lookup, hr]
  | cons e rest ih =>
      rw [List.cons_append, consumedPairs_cons, consumedPairs_cons, ih]
      cases he : entryPairs e <;> cases h1 : consumedPairs rest <;>
        cases h2 : consumedPairs src2 <;>
          simp [List.append_assoc]

/-- Python truthiness of an optional string CLI value: `None` and the empty
string are falsy. -/
def pyTruthy (o : Option String) : Bool :=
  match o with
  | none => false
  | some s => !s.isEmpty

/-- f-string interpolation of a possibly absent value: Python renders the
`None` object as the text "None". -/
def pyFormatOpt (o : Option String) : String :=
  match o with
  | some s => s
  | none => "None"

/-- Embedding of the token resolution (gh_stats.py lines 55-61): `auth_token`
is the `-t` option (`none` when not supplied), `env_token` the value of the
GH_TOKEN environment variable (`none` when absent). The function is total —
no branch raises: `os.getenv` returns `None` rather than raising when the
variable is absent, so the `except` arm is unreachable (and it only
constructs a ValueError without raising it). -/
def resolveAuthHeaders (auth_token env_token : Option String) :
    List (String × String) :=
  if pyTruthy auth_token then [("Authorization", "token " ++ auth_token.getD "")]
  else [("Authorization", "token " ++ pyFormatOpt env_token)]

/-- C4: with no `--auth-token` and no GH_TOKEN in the environment, token
resolution completes without aborting (the embedding is a total function and
this equation evaluates) and the Authorization header embeds the literal
text "None" as the token, so execution proceeds to the first upstream call
with that header. -/
theorem missing_token_not_fatal :
    resolveAuthHeaders none none = [("Authorization", "token None")] := rfl

/-- The characters Python `str.strip()` removes (ASCII whitespace; the
repository owner names at issue are ASCII). -/
def isPySpace (c : Char) : Bool :=
  c = ' ' || c = '\t' || c = '\n' || c = '\r' || c = '\x0b' || c = '\x0c'

/-- Python `s.strip(chars)` on one predicate: drop the matching run from the
left, then from the right. -/
def pyStrip (p : Char → Bool) (l : List Char) : List Char :=
  (l.dropWhile p).rdropWhile p

/-- Embedding of `org.strip().strip('/')` (gh_stats.py lines 67 and 72): the
owner string used in the listing request URL. -/
def ownerOf (s : String) : String :=
  String.mk (pyStrip (fun c => c == '/') (pyStrip isPySpace s.toList))

/-- Stated from the spec words, for comparison with `ownerOf`: remove all
leading and trailing characters that are whitespace or a slash, in one pass. -/
def specStripOwner (s : String) : String :=
  String.mk (pyStrip (fun c => isPySpace c || c == '/') s.toList)

theorem head?_dropWhile_not (p : Char → Bool) :
    ∀ (l : List Char) (c : Char), (l.dropWhile p).head? = some c → p c = false := by
  intro l
  induction l with
  | nil => intro c h; simp [List.dropWhile] at h
  | cons a t ih =>
      intro c h
      by_cases hp : p a
      · rw [List.dropWhile_cons_of_pos hp] at h
        exact ih c h
      · rw [List.dropWhile_cons_of_neg hp] at h
        simp at h
        rw [← h]
        exact Bool.not_eq_true _ |>.mp hp

theorem head?_pyStrip_not (p : Char → Bool) (l : List Char) (c : Char)
    (h : (pyStrip p l).head? = some c) : p c = false := by
  obtain ⟨t, ht⟩ := List.rdropWhile_prefix (p := p) (l := l.dropWhile p)
  apply head?_dropWhile_not p l c
  rw [← ht, List.head?_append, pyStrip] at *
  rw [h]
  rfl

theorem getLast?_pyStrip_not (p : Char → Bool) (l : List Char) (c : Char)
    (h : (pyStrip p l).getLast? = some c) : p c = false := by
  have hne : (l.dropWhile p).rdropWhile p ≠ [] := by
    intro h0
    rw [pyStrip, h0] at h
    simp at h
  have hlast := List.rdropWhile_last_not (p := p) (l := l.dropWhile p) hne
  rw [pyStrip, List.getLast?_eq_getLast _ hne] at h
  have : ((l.dropWhile p).rdropWhile p).getLast hne = c := by
    injection h
  rw [this] at hlast
  exact Bool.not_eq_true _ |>.mp hlast

/-- C8 counterexample: the stripping is two-pass (whitespace first, then
slashes), so whitespace that sits inside the outer slashes survives:
`"/ acme /"` resolves to `" acme "`, not to `"acme"` as the claim (and its
own example) states. -/
theorem owner_strip_counterexample :
    ownerOf "/ acme /" = " acme " ∧
    specStripOwner "/ acme /" = "acme" ∧
    ownerOf "/ acme /" ≠ specStripOwner "/ acme /" := by
  decide

/-- C8 amended: the owner is the supplied name first stripped of leading and
trailing whitespace, then stripped of leading and trailing slashes; hence it
never begins or ends with a slash, but whitespace uncovered by the slash
removal is kept. When the whitespace lies outside the slashes (for example
`" /acme/ "`), the result coincides with removing both character classes. -/
theorem owner_strip_amended (s : String) :
    (∀ c, (ownerOf s).toList.head? = some c → c ≠ '/') ∧
    (∀ c, (ownerOf s).toList.getLast? = some c → c ≠ '/') ∧
    ownerOf " /acme/ " = "acme" := by
  refine ⟨?_, ?_, by decide⟩
  · intro c h
    have := head?_pyStrip_not (fun c => c == '/') _ c (by simpa [ownerOf] using h)
    simpa using this
  · intro c h
    have := getLast?_pyStrip_not (fun c => c == '/') _ c (by simpa [ownerOf] using h)
    simpa using this

/-- C8 amended witness: at input `"/ acme /"` the resolved owner starts with
a space (not a slash), and the well-placed example resolves to `acme`. -/
theorem owner_strip_amended_witness :
    (' ' ≠ '/') ∧ ownerOf " /acme/ " = "acme" :=
  ⟨(owner_strip_amended "/ acme /").1 ' ' (by decide),
   (owner_strip_amended "/ acme /").2.2⟩

/-- The repository source the run actually uses. Each of the two listing
constructors corresponds to the single listing request the branch issues
(`/orgs/{owner}/repos` resp. `/users/{owner}/repos`); `fromConfig` issues no
listing request at all. -/
inductive RepoSelector where
  | fromConfig (path : String)
  | listOrg (owner : String)
  | listUser (owner : String)
  | unresolved
  deriving Repr, DecidableEq

/-- Embedding of the source-selection chain (gh_stats.py lines 64-75):
`if repos: ... elif org: ... elif user: ...`; when no selector is truthy,
`repos_dict` is never bound (a NameError downstream), modelled
`unresolved`. -/
def selectSource (repos org user : Option String) : RepoSelector :=
  if pyTruthy repos then RepoSelector.fromConfig (repos.getD "")
  else if pyTruthy org then RepoSelector.listOrg (ownerOf (org.getD ""))
  else if pyTruthy user then RepoSelector.listUser (ownerOf (user.getD ""))
  else RepoSelector.unresolved

/-- C9: when several selectors are supplied (as non-empty strings), exactly
one source is used, with `--repos` taking precedence over `--org` and
`--org` over `--user`; the chosen constructor shows that no listing request
is issued for the ignored selectors. -/
theorem selector_precedence (r o u : String) (hr : r ≠ "") (ho : o ≠ "") :
    selectSource (some r) (some o) (some u) = RepoSelector.fromConfig r ∧
    selectSource none (some o) (some u) = RepoSelector.listOrg (ownerOf o) := by
  constructor <;> simp [selectSource, pyTruthy, String.isEmpty_iff, hr, ho]

/-- C9 witness: all three selectors supplied picks the config file; org and
user supplied picks the org listing. -/
theorem selector_precedence_witness :
    selectSource (some "repos.yml") (some "acme") (some "bob") =
      RepoSelector.fromConfig "repos.yml" ∧
    selectSource none (some "acme") (some "bob") =
      RepoSelector.listOrg "acme" := by
  have h := selector_precedence "repos.yml" "acme" "bob"
    (by decide) (by decide)
  exact ⟨h.1, h.2.trans (by decide)⟩

/-- Split a character list on a separator character; like Python
`s.split(sep)`, adjacent separators yield empty segments. -/
def splitOnChar (sep : Char) : List Char → List (List Char)
  | [] => [[]]
  | c :: rest =>
      let r := splitOnChar sep rest
      if c = sep then [] :: r
      else
        match r with
        | [] => [[c]]
        | h :: t => (c :: h) :: t

/-- Embedding of `pathlib.PurePath.name` for POSIX paths: the final path component, with
empty and single-dot components discarded. -/
def pathName (s : String) : List Char :=
  let parts := (splitOnChar '/' s.toList).filter
    (fun part => !(part.isEmpty) && !(part == ['.']))
  parts.getLast?.getD []

/-- Embedding of `pathlib.PurePath.suffix`: the substring of the final component from its
last dot onward, provided that dot is neither the first nor the last
character of the component; otherwise the empty string. In the component,
`k` counts the characters after the last dot, so the dot sits at index
`length - 1 - k`. -/
def pathSuffix (s : String) : String :=
  let cs := pathName s
  let k := (cs.reverse.takeWhile (fun c => !(c = '.'))).length
  if k = cs.length then ""
  else
    let i := cs.length - 1 - k
    if 0 < i && i < cs.length - 1 then String.mk (cs.drop i) else ""

/-- What the output sink does for a given `--output-file` value. Exactly one
action happens per run; a write action records the path actually opened. -/
inductive OutputAction where
  | writeCsv (path : String)
  | writeJson (path : String)
  | consoleTable
  | fatalError (msg : String)
  deriving Repr, DecidableEq

/-- Embedding of the output dispatch (gh_stats.py lines 88-158): with a
truthy `--output-file`, suffix ".csv" opens the hardcoded literal path
"data.csv" (line 93), suffix ".json" opens the supplied path (line 127), any
other suffix raises ValueError before any file is opened (line 132); with no
(or an empty) `--output-file`, the console table is rendered. -/
def outputAction (output_file : Option String) : OutputAction :=
  if pyTruthy output_file then
    let p := output_file.getD ""
    if pathSuffix p = ".csv" then OutputAction.writeCsv "data.csv"
    else if pathSuffix p = ".json" then OutputAction.writeJson p
    else OutputAction.fatalError "Output file must be CSV or JSON"
  else OutputAction.consoleTable

/-- C1 is refuted by the code: for the supplied destination "stats.csv" the
CSV branch opens the hardcoded path "data.csv", not the supplied path — the
`--output-file` value only selects the branch. The JSON branch, by contrast,
does use the supplied path. -/
theorem csv_destination_hardcoded :
    outputAction (some "stats.csv") = OutputAction.writeCsv "data.csv" ∧
    OutputAction.writeCsv "data.csv" ≠ OutputAction.writeCsv "stats.csv" ∧
    outputAction (some "stats.json") = OutputAction.writeJson "stats.json" := by
  decide

/-- C5: a non-empty output path whose suffix is neither ".csv" nor ".json"
makes the run end in the fatal ValueError; since the dispatch produces the
error action and not a write action, no file is created or modified. -/
theorem bad_extension_fatal (p : String) (hne : p ≠ "")
    (hcsv : pathSuffix p ≠ ".csv") (hjson : pathSuffix p ≠ ".json") :
    outputAction (some p) =
      OutputAction.fatalError "Output file must be CSV or JSON" := by
  simp [outputAction, pyTruthy, String.isEmpty_iff, hne, hcsv, hjson]

/-- C5 witness: the path "stats.txt" is non-empty, has suffix ".txt", and is
rejected with the fatal error. -/
theorem bad_extension_fatal_witness :
    outputAction (some "stats.txt") =
      OutputAction.fatalError "Output file must be CSV or JSON" :=
  bad_extension_fatal "stats.txt" (by decide) (by decide) (by decide)

/-- The `fieldnames` list passed to `csv.DictWriter` (gh_stats.py lines
96-105), in order. -/
def csvFieldNames : List String :=
  ["Repo", "Forks", "Stars", "Watchers",
   "Clones Total", "Clones Unique", "Views Total", "Views Unique"]

/-- csv QUOTE_MINIMAL: a field is quoted iff it contains the delimiter, the
quote character, or a line-terminator character. -/
def needsQuote (s : String) : Bool :=
  s.toList.any (fun c => c = ',' || c = '"' || c = '\r' || c = '\n')

/-- One CSV field as the csv module writes it: quoted with doubled inner
quote characters when necessary, verbatim otherwise. -/
def csvField (s : String) : String :=
  if needsQuote s then
    String.mk ('"' :: s.toList.flatMap (fun c => if c = '"' then ['"', '"'] else [c]) ++ ['"'])
  else s

/-- One data row as `writer.writerow` emits it (gh_stats.py lines 109-121):
the eight values in fieldname order, integers via their decimal text
representation (Python `str`), joined by commas. -/
def csvRow (r : RepoStatsRecord) : String :=
  String.intercalate ","
    [csvField r.repo, csvField (toString r.forks), csvField (toString r.stars),
     csvField (toString r.watchers), csvField (toString r.clonesTotal),
     csvField (toString r.clonesUnique), csvField (toString r.viewsTotal),
     csvField (toString r.viewsUnique)]

/-- The header row `writer.writeheader` emits: the fieldnames themselves as
a CSV row. -/
def csvHeader : String := String.intercalate "," (csvFieldNames.map csvField)

/-- The rows the CSV writer emits for a record list, in order: the header
first, then one row per record (gh_stats.py lines 107-121). -/
def csvLines (records : List RepoStatsRecord) : List String :=
  csvHeader :: records.map csvRow

/-- The bytes of the produced file: every row is terminated by the csv
module default line terminator CRLF (the file is opened with an empty
newline argument, which keeps it verbatim). -/
def csvFileContent (records : List RepoStatsRecord) : String :=
  String.join ((csvLines records).map (fun l => l ++ "\r\n"))

/-- C7: the CSV output has exactly N+1 rows: the header, equal verbatim to
"Repo,Forks,Stars,Watchers,Clones Total,Clones Unique,Views Total,Views
Unique", followed by one row per record in order, integer values rendered
as decimal text. -/
theorem csv_shape (records : List RepoStatsRecord) :
    (csvLines records).length = records.length + 1 ∧
    (csvLines records).head? =
      some "Repo,Forks,Stars,Watchers,Clones Total,Clones Unique,Views Total,Views Unique" ∧
    ∀ i (h : i < records.length),
      (csvLines records)[i + 1]? = some (csvRow (records.get ⟨i, h⟩)) := by
  refine ⟨by simp [csvLines], ?_, ?_⟩
  · show some csvHeader = _
    decide
  · intro i h
    simp [csvLines]
    exact ⟨records[i], by simp [List.getElem?_eq_getElem h], rfl⟩

/-- C7 witness: for one record the CSV output is the header plus one row,
and the row renders every counter as decimal text. -/
theorem csv_shape_witness :
    (csvLines [⟨"acme/widgets", 3, 10, 10, 5, 4, 50, 20⟩]).length = 2 ∧
    (csvLines [⟨"acme/widgets", 3, 10, 10, 5, 4, 50, 20⟩])[1]? =
      some "acme/widgets,3,10,10,5,4,50,20" := by
  have h := csv_shape [⟨"acme/widgets", 3, 10, 10, 5, 4, 50, 20⟩]
  exact ⟨h.1, (h.2.2 0 (by decide)).trans (by decide)⟩

/-- JSON values as Python `json.dumps` serializes and `json.load` parses
them, restricted to the shapes this program produces: objects keep their
insertion-ordered keys. The fixed indent only affects whitespace, which the
parse discards, so the dump/parse round trip is the identity on these
values. -/
inductive Json where
  | str (s : String)
  | num (n : Int)
  | arr (xs : List Json)
  | obj (fields : List (String × Json))

/-- Dictionary access on a parsed JSON value. -/
def Json.getField : Json → String → Option Json
  | .obj fields, key => fields.lookup key
  | _, _ => none

def Json.asStr : Json → Option String
  | .str s => some s
  | _ => none

def Json.asNum : Json → Option Int
  | .num n => some n
  | _ => none

/-- One record as the flat JSON field map `json.dumps` receives, keys in the
dict-literal order of `get_repo_data`. -/
def recordToJson (r : RepoStatsRecord) : Json :=
  Json.obj [("Repo", Json.str r.repo), ("Forks", Json.num r.forks),
            ("Stars", Json.num r.stars), ("Watchers", Json.num r.watchers),
            ("Clones Total", Json.num r.clonesTotal),
            ("Clones Unique", Json.num r.clonesUnique),
            ("Views Total", Json.num r.viewsTotal),
            ("Views Unique", Json.num r.viewsUnique)]

/-- The document written by the JSON branch (gh_stats.py lines 127-129):
`{"Data": [record, ...]}`. -/
def jsonOutput (records : List RepoStatsRecord) : Json :=
  Json.obj [("Data", Json.arr (records.map recordToJson))]

/-- Reading one record back from a parsed JSON field map, field by field. -/
def recordOfJson (j : Json) : Option RepoStatsRecord := do
  let repo ← (← j.getField "Repo").asStr
  let forks ← (← j.getField "Forks").asNum
  let stars ← (← j.getField "Stars").asNum
  let watchers ← (← j.getField "Watchers").asNum
  let clonesTotal ← (← j.getField "Clones Total").asNum
  let clonesUnique ← (← j.getField "Clones Unique").asNum
  let viewsTotal ← (← j.getField "Views Total").asNum
  let viewsUnique ← (← j.getField "Views Unique").asNum
  pure ⟨repo, forks, stars, watchers, clonesTotal, clonesUnique,
        viewsTotal, viewsUnique⟩

theorem recordOfJson_recordToJson (r : RepoStatsRecord) :
    recordOfJson (recordToJson r) = some r := rfl

/-- C6: the JSON document holds, under the key "Data", an array of length N
whose elements read back, in order, to exactly the in-memory records. -/
theorem json_round_trip (records : List RepoStatsRecord) :
    ∃ l : List Json,
      (jsonOutput records).getField "Data" = some (Json.arr l) ∧
      l.length = records.length ∧
      l.map recordOfJson = records.map some := by
  refine ⟨records.map recordToJson, ?_, by simp, ?_⟩
  · simp [jsonOutput, Json.getField, List.lookup]
  · simp [recordOfJson_recordToJson]
